import Mathlib

/-!
Shallow embedding of the binding/dispatch core of the ruma client library:
identifier validation (MXC URIs, server names, device ids), event content
construction and (de)serialization (key-verification start, space child,
poll response), query-string binding for the knock endpoint, and the
unpadded base64 codec. Definitions are translated from the Rust source;
where a function lives outside the provided sources, it is modelled from
the specification and marked as such in its doc comment.
-/

namespace Ruma

/-! ### Key verification start: enums and `MSasV1Content` construction
(src/ruma-events/src/key/verification/start.rs) -/

/-- Modelled from the spec: the key-agreement protocol enum from the
key-verification module (module file not among the provided sources); the
"designated pair" named by the spec and the source doc comments. -/
inductive KeyAgreementProtocol where
  | curve25519
  | curve25519HkdfSha256
deriving DecidableEq, Repr

/-- Modelled from the spec: the hash-algorithm enum from the key-verification
module (module file not among the provided sources). -/
inductive HashAlgorithm where
  | sha256
deriving DecidableEq, Repr

/-- Modelled from the spec: the message-authentication-code enum from the
key-verification module (module file not among the provided sources). -/
inductive MessageAuthenticationCode where
  | hkdfHmacSha256
  | hmacSha256
deriving DecidableEq, Repr

/-- Modelled from the spec: the short-authentication-string enum from the
key-verification module (module file not among the provided sources). -/
inductive ShortAuthenticationString where
  | decimal
  | emoji
deriving DecidableEq, Repr

/-- The `InvalidInput` error carrying its message string
(`crate::InvalidInput`). -/
structure InvalidInput where
  msg : String
deriving DecidableEq, Repr

/-- The payload of an `m.key.verification.start` event using the `m.sas.v1`
method (struct `MSasV1Content`). -/
structure MSasV1Content where
  key_agreement_protocols : List KeyAgreementProtocol
  hashes : List HashAlgorithm
  message_authentication_codes : List MessageAuthenticationCode
  short_authentication_string : List ShortAuthenticationString
deriving DecidableEq, Repr

/-- Mandatory initial set of fields for creating an `MSasV1Content`
(struct `MSasV1ContentInit`). -/
structure MSasV1ContentInit where
  key_agreement_protocols : List KeyAgreementProtocol
  hashes : List HashAlgorithm
  message_authentication_codes : List MessageAuthenticationCode
  short_authentication_string : List ShortAuthenticationString
deriving DecidableEq, Repr

/-- Error message of the `key_agreement_protocols` check in
`TryFrom<MSasV1ContentInit> for MSasV1Content`. -/
def kapErrMsg : String :=
  "`key_agreement_protocols` must contain at least `KeyAgreementProtocol::Curve25519` or `KeyAgreementProtocol::Curve25519HkdfSha256`"

/-- Error message of the `hashes` check. -/
def hashesErrMsg : String :=
  "`hashes` must contain at least `HashAlgorithm::Sha256`"

/-- Error message of the `message_authentication_codes` check. -/
def macErrMsg : String :=
  "`message_authentication_codes` must contain at least `MessageAuthenticationCode::HkdfHmacSha256`"

/-- Error message of the `short_authentication_string` check. -/
def sasErrMsg : String :=
  "`short_authentication_string` must contain at least `ShortAuthenticationString::Decimal`"

/-- Embedding of `TryFrom<MSasV1ContentInit> for MSasV1Content::try_from`:
four sequential membership checks with early `InvalidInput` returns, then
construction from the init fields. -/
def mSasV1TryFrom (init : MSasV1ContentInit) : Except InvalidInput MSasV1Content :=
  if ¬ (KeyAgreementProtocol.curve25519 ∈ init.key_agreement_protocols ∨
        KeyAgreementProtocol.curve25519HkdfSha256 ∈ init.key_agreement_protocols) then
    .error ⟨kapErrMsg⟩
  else if HashAlgorithm.sha256 ∉ init.hashes then
    .error ⟨hashesErrMsg⟩
  else if MessageAuthenticationCode.hkdfHmacSha256 ∉ init.message_authentication_codes then
    .error ⟨macErrMsg⟩
  else if ShortAuthenticationString.decimal ∉ init.short_authentication_string then
    .error ⟨sasErrMsg⟩
  else
    .ok ⟨init.key_agreement_protocols, init.hashes,
         init.message_authentication_codes, init.short_authentication_string⟩

/-- Embedding of `MSasV1Content::new`, which delegates to the `TryFrom`
implementation. -/
def MSasV1Content.new (options : MSasV1ContentInit) : Except InvalidInput MSasV1Content :=
  mSasV1TryFrom options

/-- Check whether `needle` occurs as a contiguous substring of `hay`
(character lists). -/
def isPrefList : List Char → List Char → Bool
  | [], _ => true
  | _ :: _, [] => false
  | a :: as, b :: bs => a = b && isPrefList as bs

/-- Substring occurrence test on character lists. -/
def containsSub (hay needle : List Char) : Bool :=
  match hay with
  | [] => isPrefList needle []
  | _ :: t => isPrefList needle hay || containsSub t needle

/-- Substring occurrence test on strings. -/
def strContains (hay needle : String) : Bool :=
  containsSub hay.toList needle.toList

/-- The concrete failing input of the spec: empty `key_agreement_protocols`,
the three remaining minimums satisfied. -/
def badKapInit : MSasV1ContentInit :=
  { key_agreement_protocols := []
    hashes := [.sha256]
    message_authentication_codes := [.hkdfHmacSha256]
    short_authentication_string := [.decimal] }

/-! ### Poll response construction
(src/crates/ruma-common/src/events/poll/response.rs) -/

/-- A block for selections content (newtype over `Vec<String>`). -/
structure SelectionsContentBlock where
  toList : List String
deriving DecidableEq, Repr

/-- Modelled from the spec: the `Reference` relation block
(`crate::events::relation::Reference`, not among the provided sources) —
a relation-kind tag (`m.reference`, implicit in the type) plus the target
event id. -/
structure Reference where
  event_id : String
deriving DecidableEq, Repr

/-- Modelled from the spec: `Reference::new` populates the relation block
with the given target event id. -/
def Reference.new (event_id : String) : Reference := ⟨event_id⟩

/-- The payload for a poll response event
(struct `PollResponseEventContent`). -/
structure PollResponseEventContent where
  selections : SelectionsContentBlock
  automated : Bool
  relates_to : Reference
deriving DecidableEq, Repr

/-- Embedding of `PollResponseEventContent::new`: stores the selections,
sets `automated` to false, and builds the mandatory relation block from the
poll-start event id. -/
def PollResponseEventContent.new (selections : SelectionsContentBlock)
    (poll_start_id : String) : PollResponseEventContent :=
  { selections := selections
    automated := false
    relates_to := Reference.new poll_start_id }

/-! ### Device id generation
(src/crates/ruma-identifiers/src/device_id.rs) -/

/-- Alphanumeric characters used by the random localpart generator. -/
def alphanumerics : List Char :=
  "ABCDEFGHIJKLMNOPQRSTUVWXYZabcdefghijklmnopqrstuvwxyz0123456789".toList

/-- Modelled from the spec: `generate_localpart` (defined outside the
provided sources) draws `len` characters from a pseudo-random source; the
source is modelled as a stream `rng : Nat → Nat` of draws, each reduced
into the alphanumeric alphabet. -/
def generate_localpart (rng : Nat → Nat) (len : Nat) : List Char :=
  (List.range len).map (fun i => alphanumerics.getD (rng i % 62) 'A')

/-- Embedding of `DeviceId::new`: a random device id of length 8 via
`generate_localpart(8)`. -/
def DeviceId.new (rng : Nat → Nat) : List Char :=
  generate_localpart rng 8

/-! ### knock_room query binding
(src/crates/ruma-client-api/src/r0/knock/knock_room.rs)

The `ruma_api!` macro expansion is not among the provided sources; the
query transform is modelled from the spec: a query-marked list field
contributes one `key=value` pair per element in list order, and an empty
list omits the parameter entirely (`skip_serializing_if = is_empty`). -/

/-- Modelled from the spec: encode the `server_name` query field of the
knock_room request as repeated `server_name=value` pairs in list order;
an empty list contributes no pairs. -/
def encodeServerNameQuery (server_name : List String) : List (String × String) :=
  server_name.map (fun s => ("server_name", s))

/-- Modelled from the spec: decoding groups same-named `server_name` keys
back into an ordered sequence, preserving order of occurrence. -/
def decodeServerNameQuery (pairs : List (String × String)) : List String :=
  (pairs.filter (fun p => p.1 = "server_name")).map Prod.snd

/-- Render a query-parameter list as a query string. -/
def renderQuery (pairs : List (String × String)) : String :=
  String.intercalate "&" (pairs.map (fun p => p.1 ++ "=" ++ p.2))

/-! ### MXC URI and server-name identifiers
(src/crates/ruma-identifiers/src/mxc_uri.rs) -/

/-- Error type for MXC URI validation
(`ruma_identifiers_validation::error::MxcUriError`). -/
inductive MxcUriError where
  | wrongSchema
  | missingSlash
  | invalidServerName
deriving DecidableEq, Repr

/-- Index of the first occurrence of character `c` in a list, if any. -/
def findCh (c : Char) : List Char → Option Nat
  | [] => none
  | a :: t => if a = c then some 0 else (findCh c t).map (· + 1)

/-- Characters allowed in a DNS-name or IPv4 host component. -/
def isHostChar (c : Char) : Bool :=
  c.isAlphanum || c = '-' || c = '.'

/-- Hexadecimal digit test. -/
def isHexCh (c : Char) : Bool :=
  c.isDigit || ('a' ≤ c && c ≤ 'f') || ('A' ≤ c && c ≤ 'F')

/-- Characters allowed inside a bracketed IPv6 literal. -/
def isIpv6Char (c : Char) : Bool :=
  isHexCh c || c = ':' || c = '.'

/-- Modelled from the spec: the ServerName grammar
(`ruma_identifiers_validation::server_name::validate`, not among the
provided sources) — a hostname or IPv4/IPv6 literal with an optional
numeric port. -/
def serverNameValidate (s : List Char) : Bool :=
  match s with
  | '[' :: rest =>
    match findCh ']' rest with
    | none => false
    | some i =>
      let addr := rest.take i
      let after := rest.drop (i + 1)
      !addr.isEmpty && addr.all isIpv6Char &&
        (after.isEmpty ||
          (after.head? == some ':' && !(after.drop 1).isEmpty &&
            (after.drop 1).all Char.isDigit))
  | _ =>
    match findCh ':' s with
    | none => !s.isEmpty && s.all isHostChar
    | some i =>
      let host := s.take i
      let port := s.drop (i + 1)
      !host.isEmpty && host.all isHostChar && !port.isEmpty && port.all Char.isDigit

/-- An MXC URI value. The `opaque_identifier!` macro gives `MxcUri` an
unvalidated `From<&str>`-style conversion (exercised by the in-repo tests),
so the wrapped character sequence is arbitrary. Indices are character
indices (the inputs of interest are ASCII, where Rust's byte indices
coincide). -/
structure MxcUri where
  chars : List Char
deriving DecidableEq, Repr

/-- The unvalidated string-to-`MxcUri` conversion provided by
`opaque_identifier!` (`Box::<MxcUri>::from(&str)` in the tests). -/
def mkMxcUri (s : String) : MxcUri := ⟨s.toList⟩

/-- Modelled from the spec:
`ruma_identifiers_validation::mxc_uri::validate` (not among the provided
sources) — strip the fixed scheme `mxc://` (else the URI is invalid),
locate the first `/` after it (else `MissingSlash`), require the segment
before the slash to validate as a ServerName, and return the index of the
slash in the full string (always at least 6, hence nonzero). -/
def mxcUriValidate (u : List Char) : Except MxcUriError Nat :=
  if u.take 6 = "mxc://".toList then
    match findCh '/' (u.drop 6) with
    | none => .error .missingSlash
    | some i =>
      if serverNameValidate ((u.drop 6).take i) then .ok (6 + i)
      else .error .invalidServerName
  else .error .wrongSchema

/-- Embedding of the private `MxcUri::extract_slash_idx`, which delegates
to the validation function. -/
def MxcUri.extract_slash_idx (u : MxcUri) : Except MxcUriError Nat :=
  mxcUriValidate u.chars

/-- Embedding of `MxcUri::parts`: on success, splits at the slash index into
the server-name segment (characters 6 up to the slash) and the media id
(everything after the slash, possibly empty). -/
def MxcUri.parts (u : MxcUri) : Except MxcUriError (List Char × List Char) :=
  u.extract_slash_idx.map (fun idx => ((u.chars.take idx).drop 6, u.chars.drop (idx + 1)))

/-- Embedding of `MxcUri::media_id`. -/
def MxcUri.media_id (u : MxcUri) : Except MxcUriError (List Char) :=
  u.parts.map Prod.snd

/-- Embedding of `MxcUri::server_name`. -/
def MxcUri.server_name (u : MxcUri) : Except MxcUriError (List Char) :=
  u.parts.map Prod.fst

/-- Embedding of `MxcUri::validate`. -/
def MxcUri.validate (u : MxcUri) : Except MxcUriError Unit :=
  u.extract_slash_idx.map (fun _ => ())

/-- Embedding of `MxcUri::is_valid` (convenience for `validate().is_ok()`). -/
def MxcUri.is_valid (u : MxcUri) : Bool :=
  u.validate.isOk

/-! ### Base64 codec
(src/crates/ruma-serde/src/base64.rs)

`Base64::encode` and `Base64::parse` delegate to the base64 crate with an
unpadded alphabet configuration and `decode_allow_trailing_bits(true)`;
the codec itself is embedded here at the level of bytes (Nat < 256) and
sextets (Nat < 64). -/

/-- The two selectable alphabet configurations (`Standard`, `UrlSafe`),
both unpadded. -/
inductive Base64Conf where
  | standard
  | urlSafe
deriving DecidableEq, Repr

/-- The 64-character alphabet of a configuration. -/
def alphaChars : Base64Conf → List Char
  | .standard =>
    "ABCDEFGHIJKLMNOPQRSTUVWXYZabcdefghijklmnopqrstuvwxyz0123456789+/".toList
  | .urlSafe =>
    "ABCDEFGHIJKLMNOPQRSTUVWXYZabcdefghijklmnopqrstuvwxyz0123456789-_".toList

/-- The alphabet character of a sextet value. -/
def alphaChar (cfg : Base64Conf) (n : Nat) : Char :=
  (alphaChars cfg).getD n 'A'

/-- Unpadded base64 at the sextet level: 3 bytes map to 4 sextets; a final
chunk of 1 or 2 bytes maps to 2 or 3 sextets with zero trailing bits and no
padding. -/
def encodeBytes : List Nat → List Nat
  | [] => []
  | [b1] => [b1 / 4, b1 % 4 * 16]
  | [b1, b2] => [b1 / 4, b1 % 4 * 16 + b2 / 16, b2 % 16 * 4]
  | b1 :: b2 :: b3 :: rest =>
    b1 / 4 :: (b1 % 4 * 16 + b2 / 16) :: (b2 % 16 * 4 + b3 / 64) :: b3 % 64 ::
      encodeBytes rest

/-- Inverse transform at the sextet level. A single trailing sextet is an
invalid length; when `allow` is false (canonical decoding), nonzero
trailing bits in a final 2- or 3-sextet chunk are rejected, and when
`allow` is true (`decode_allow_trailing_bits`) they are ignored. -/
def decodeSextets (allow : Bool) : List Nat → Option (List Nat)
  | [] => some []
  | [_] => none
  | [s1, s2] =>
    if allow = true ∨ s2 % 16 = 0 then some [s1 * 4 + s2 / 16] else none
  | [s1, s2, s3] =>
    if allow = true ∨ s3 % 4 = 0 then
      some [s1 * 4 + s2 / 16, s2 % 16 * 16 + s3 / 4]
    else none
  | s1 :: s2 :: s3 :: s4 :: rest =>
    (decodeSextets allow rest).map
      (fun bs => (s1 * 4 + s2 / 16) :: (s2 % 16 * 16 + s3 / 4) :: (s3 % 4 * 64 + s4) :: bs)

/-- Map characters of the configured alphabet back to sextets; any foreign
character fails the whole decode. -/
def decodeChars (cfg : Base64Conf) : List Char → Option (List Nat)
  | [] => some []
  | c :: t =>
    match findCh c (alphaChars cfg), decodeChars cfg t with
    | some n, some ns => some (n :: ns)
    | _, _ => none

/-- Embedding of `Base64::encode`: canonical unpadded base64 text of the
held bytes under the chosen alphabet. -/
def base64Encode (cfg : Base64Conf) (bytes : List Nat) : List Char :=
  (encodeBytes bytes).map (alphaChar cfg)

/-- Embedding of `Base64::parse` under the chosen alphabet; the
configurations in the source set `decode_allow_trailing_bits(true)`,
i.e. `allow = true`. -/
def base64Parse (cfg : Base64Conf) (allow : Bool) (s : List Char) : Option (List Nat) :=
  (decodeChars cfg s).bind (decodeSextets allow)

/-! ### JSON values and canonical (key-sorted) objects

JSON objects are modelled as association lists in strictly increasing key
order — the canonical order-independent representative of a JSON object
(Rust's `BTreeMap`/`serde_json::Map` likewise keeps keys sorted). -/

/-- A JSON value. -/
inductive Json where
  | null
  | bool (b : Bool)
  | num (n : Int)
  | str (s : String)
  | arr (elems : List Json)
  | obj (fields : List (String × Json))

/-- Look up a key in an object's field list. -/
def lookupK (k : String) : List (String × Json) → Option Json
  | [] => none
  | (k', v) :: t => if k = k' then some v else lookupK k t

/-- Remove a key (its first occurrence) from an object's field list. -/
def eraseK (k : String) : List (String × Json) → List (String × Json)
  | [] => []
  | (k', v) :: t => if k = k' then t else (k', v) :: eraseK k t

/-- Insert a key into a sorted field list, keeping sorted order and
replacing an existing binding of the same key. -/
def insertK (k : String) (v : Json) : List (String × Json) → List (String × Json)
  | [] => [(k, v)]
  | (k', v') :: t =>
    if k < k' then (k, v) :: (k', v') :: t
    else if k = k' then (k, v) :: t
    else (k', v') :: insertK k v t

/-- Strictly increasing key order: the canonical-object invariant. -/
def SortedK (l : List (String × Json)) : Prop :=
  List.Pairwise (fun a b => a.1 < b.1) l

/-! ### Key verification start: (de)serialization
(src/ruma-events/src/key/verification/start.rs)

`StartEventContent` flattens an untagged `StartMethod` into its object;
`MSasV1Content` is internally tagged on the `method` field with value
`m.sas.v1`; `CustomContent` is the fallback carrying the method name and
all remaining fields. -/

/-- Wire string of a key-agreement protocol. -/
def kapToStr : KeyAgreementProtocol → String
  | .curve25519 => "curve25519"
  | .curve25519HkdfSha256 => "curve25519-hkdf-sha256"

/-- Parse a key-agreement protocol wire string. -/
def kapFromStr (s : String) : Option KeyAgreementProtocol :=
  if s = "curve25519" then some .curve25519
  else if s = "curve25519-hkdf-sha256" then some .curve25519HkdfSha256
  else none

/-- Wire string of a hash algorithm. -/
def hashToStr : HashAlgorithm → String
  | .sha256 => "sha256"

/-- Parse a hash-algorithm wire string. -/
def hashFromStr (s : String) : Option HashAlgorithm :=
  if s = "sha256" then some .sha256 else none

/-- Wire string of a message authentication code. -/
def macToStr : MessageAuthenticationCode → String
  | .hkdfHmacSha256 => "hkdf-hmac-sha256"
  | .hmacSha256 => "hmac-sha256"

/-- Parse a message-authentication-code wire string. -/
def macFromStr (s : String) : Option MessageAuthenticationCode :=
  if s = "hkdf-hmac-sha256" then some .hkdfHmacSha256
  else if s = "hmac-sha256" then some .hmacSha256
  else none

/-- Wire string of a short-authentication-string method. -/
def sasToStr : ShortAuthenticationString → String
  | .decimal => "decimal"
  | .emoji => "emoji"

/-- Parse a short-authentication-string wire string. -/
def sasFromStr (s : String) : Option ShortAuthenticationString :=
  if s = "decimal" then some .decimal
  else if s = "emoji" then some .emoji
  else none

/-- Parse a list of JSON strings elementwise; any non-string or unknown
element fails. -/
def parseStrItems (f : String → Option α) : List Json → Option (List α)
  | [] => some []
  | .str s :: t =>
    match f s, parseStrItems f t with
    | some a, some as => some (a :: as)
    | _, _ => none
  | _ :: _ => none

/-- Parse a JSON array of strings. -/
def parseStrArr (f : String → Option α) : Json → Option (List α)
  | .arr l => parseStrItems f l
  | _ => none

/-- Method specific content of an unknown key verification method
(struct `CustomContent`): the method name plus all remaining fields
(a `BTreeMap`, modelled as a sorted field list). -/
structure CustomContent where
  method : String
  fields : List (String × Json)

/-- The untagged method enum of a verification-start payload
(enum `StartMethod`). -/
inductive StartMethod where
  | mSasV1 (c : MSasV1Content)
  | custom (c : CustomContent)

/-- The payload of an `m.key.verification.start` event
(struct `StartEventContent`); the `method` field is flattened into the
content object. -/
structure StartEventContent where
  from_device : String
  transaction_id : String
  method : StartMethod

/-- Serialize `MSasV1Content` with its internal tag `method = "m.sas.v1"`
into a canonical object. -/
def serializeMSasV1 (c : MSasV1Content) : List (String × Json) :=
  insertK "method" (.str "m.sas.v1")
    (insertK "short_authentication_string"
        (.arr (c.short_authentication_string.map (fun x => .str (sasToStr x))))
      (insertK "message_authentication_codes"
          (.arr (c.message_authentication_codes.map (fun x => .str (macToStr x))))
        (insertK "key_agreement_protocols"
            (.arr (c.key_agreement_protocols.map (fun x => .str (kapToStr x))))
          (insertK "hashes" (.arr (c.hashes.map (fun x => .str (hashToStr x)))) []))))

/-- Attempt the internally tagged `MSasV1Content` deserialization: requires
`method = "m.sas.v1"` and the four list fields, ignores any other field. -/
def tryMSasV1 (o : List (String × Json)) : Option MSasV1Content :=
  match lookupK "method" o with
  | some (.str m) =>
    if m = "m.sas.v1" then
      match lookupK "key_agreement_protocols" o, lookupK "hashes" o,
          lookupK "message_authentication_codes" o,
          lookupK "short_authentication_string" o with
      | some jk, some jh, some jm, some js =>
        match parseStrArr kapFromStr jk, parseStrArr hashFromStr jh,
            parseStrArr macFromStr jm, parseStrArr sasFromStr js with
        | some ks, some hs, some ms, some ss => some ⟨ks, hs, ms, ss⟩
        | _, _, _, _ => none
      | _, _, _, _ => none
    else none
  | _ => none

/-- Untagged `StartMethod` deserialization: try the registered `m.sas.v1`
shape first, then fall back to `CustomContent`, which keeps the method name
and every remaining field. -/
def deserializeStartMethod (o : List (String × Json)) : Option StartMethod :=
  match tryMSasV1 o with
  | some c => some (.mSasV1 c)
  | none =>
    match lookupK "method" o with
    | some (.str m) => some (.custom ⟨m, eraseK "method" o⟩)
    | _ => none

/-- Serialize a `StartMethod` into the flattened content fields. -/
def serializeStartMethod : StartMethod → List (String × Json)
  | .mSasV1 c => serializeMSasV1 c
  | .custom c => insertK "method" (.str c.method) c.fields

/-- Serialize a `StartEventContent` into a canonical content object. -/
def serializeStartEventContent (c : StartEventContent) : List (String × Json) :=
  insertK "from_device" (.str c.from_device)
    (insertK "transaction_id" (.str c.transaction_id)
      (serializeStartMethod c.method))

/-- Deserialize a `StartEventContent`: extract the two string fields, then
hand the remaining fields to the flattened `StartMethod`. -/
def deserializeStartEventContent (o : List (String × Json)) : Option StartEventContent :=
  match lookupK "from_device" o, lookupK "transaction_id" o with
  | some (.str fd), some (.str tid) =>
    (deserializeStartMethod (eraseK "transaction_id" (eraseK "from_device" o))).map
      (fun m => ⟨fd, tid, m⟩)
  | _, _ => none

/-- The registered-method example content of the repository's
deserialization test, as a canonical object. -/
def mSasExampleObj : List (String × Json) :=
  [("from_device", .str "123"),
   ("hashes", .arr [.str "sha256"]),
   ("key_agreement_protocols", .arr [.str "curve25519"]),
   ("message_authentication_codes", .arr [.str "hkdf-hmac-sha256"]),
   ("method", .str "m.sas.v1"),
   ("short_authentication_string", .arr [.str "decimal"]),
   ("transaction_id", .str "456")]

/-! ### Space child event content
(src/crates/ruma-events/src/space/child.rs) -/

/-- The payload for `ChildEvent` (struct `ChildEventContent`): three
optional fields, each marked `skip_serializing_if = "Option::is_none"`. -/
structure ChildEventContent where
  via : Option (List String)
  order : Option String
  suggested : Option Bool

/-- Serialize a `ChildEventContent`: each `None` field is entirely absent
from the object (never null or empty). -/
def serializeChild (c : ChildEventContent) : List (String × Json) :=
  (match c.order with | some o => [("order", Json.str o)] | none => []) ++
  (match c.suggested with | some b => [("suggested", Json.bool b)] | none => []) ++
  (match c.via with | some v => [("via", Json.arr (v.map Json.str))] | none => [])

/-- Deserialize the `via` value: a JSON array of grammar-valid server
names (each element a `Box<ServerName>`); serde maps an explicit null to
`None`. -/
def parseViaList : List Json → Option (List String)
  | [] => some []
  | .str s :: t =>
    if serverNameValidate s.toList then (parseViaList t).map (s :: ·) else none
  | _ :: _ => none

/-- Parse the present `via` field value. -/
def parseViaVal : Json → Option (Option (List String))
  | .null => some none
  | .arr l => (parseViaList l).map some
  | _ => none

/-- Parse the present `order` field value. -/
def parseOrderVal : Json → Option (Option String)
  | .null => some none
  | .str s => some (some s)
  | _ => none

/-- Parse the present `suggested` field value. -/
def parseSuggestedVal : Json → Option (Option Bool)
  | .null => some none
  | .bool b => some (some b)
  | _ => none

/-- Apply a field parser to an optional field occurrence: an absent field
maps back to the field's default (`None`). -/
def parseOptField (f : Json → Option (Option α)) : Option Json → Option (Option α)
  | none => some none
  | some j => f j

/-- Deserialize a `ChildEventContent` from a content object; unknown fields
are ignored, absent optional fields become their defaults. -/
def deserializeChild (o : List (String × Json)) : Option ChildEventContent :=
  match parseOptField parseViaVal (lookupK "via" o),
      parseOptField parseOrderVal (lookupK "order" o),
      parseOptField parseSuggestedVal (lookupK "suggested" o) with
  | some v, some ord, some sug => some ⟨v, ord, sug⟩
  | _, _, _ => none

/-! ## Theorems -/

/-- Helper: every alphabet character is in the alphabet list. -/
theorem alphaChar_mem (cfg : Base64Conf) (n : Nat) : alphaChar cfg n ∈ alphaChars cfg := by
  unfold alphaChar
  rw [List.getD_eq_getElem?_getD]
  cases h : (alphaChars cfg)[n]? with
  | none => cases cfg <;> decide
  | some x =>
    obtain ⟨hlt, rfl⟩ := List.getElem?_eq_some.mp h
    simp

/-- Helper: the padding character is in neither alphabet. -/
theorem pad_not_mem_alphaChars (cfg : Base64Conf) : '=' ∉ alphaChars cfg := by
  cases cfg <;> decide

/-- Helper: decoding an alphabet character recovers its sextet. -/
theorem findCh_alphaChar (cfg : Base64Conf) :
    ∀ n, n < 64 → findCh (alphaChar cfg n) (alphaChars cfg) = some n := by
  cases cfg <;> decide

/-- Helper: sextets produced from in-range bytes are in range. -/
theorem encodeBytes_bound : ∀ l, (∀ b ∈ l, b < 256) → ∀ s ∈ encodeBytes l, s < 64 := by
  intro l
  induction l using encodeBytes.induct with
  | case1 => intro _ s hs; simp [encodeBytes] at hs
  | case2 b1 =>
    intro h s hs
    have := h b1 (by simp)
    simp [encodeBytes] at hs
    rcases hs with rfl | rfl <;> omega
  | case3 b1 b2 =>
    intro h s hs
    have h1 := h b1 (by simp)
    have h2 := h b2 (by simp)
    simp [encodeBytes] at hs
    rcases hs with rfl | rfl | rfl <;> omega
  | case4 b1 b2 b3 rest ih =>
    intro h s hs
    have h1 := h b1 (by simp)
    have h2 := h b2 (by simp)
    have h3 := h b3 (by simp)
    simp [encodeBytes] at hs
    rcases hs with rfl | rfl | rfl | rfl | hs
    · omega
    · omega
    · omega
    · omega
    · exact ih (fun b hb => h b (by simp [hb])) s hs

/-- Helper: sextet-level decoding inverts sextet-level encoding, for both
the canonical and the trailing-bits-tolerant mode (encoded output always
has zero trailing bits). -/
theorem decodeSextets_encodeBytes (allow : Bool) :
    ∀ l, (∀ b ∈ l, b < 256) → decodeSextets allow (encodeBytes l) = some l := by
  intro l
  induction l using encodeBytes.induct with
  | case1 => intro _; rfl
  | case2 b1 =>
    intro h
    have h1 := h b1 (by simp)
    simp only [encodeBytes, decodeSextets]
    rw [if_pos (Or.inr (by omega))]
    congr 1
    simp
    omega
  | case3 b1 b2 =>
    intro h
    have h1 := h b1 (by simp)
    have h2 := h b2 (by simp)
    simp only [encodeBytes, decodeSextets]
    rw [if_pos (Or.inr (by omega))]
    congr 1
    simp
    constructor <;> omega
  | case4 b1 b2 b3 rest ih =>
    intro h
    have h1 := h b1 (by simp)
    have h2 := h b2 (by simp)
    have h3 := h b3 (by simp)
    have hrest := ih (fun b hb => h b (by simp [hb]))
    simp only [encodeBytes, decodeSextets, hrest, Option.map_some]
    simp
    refine ⟨by omega, by omega, by omega⟩

/-- Helper: character-level decoding inverts the alphabet map on in-range
sextets. -/
theorem decodeChars_map_alphaChar (cfg : Base64Conf) :
    ∀ ss : List Nat, (∀ s ∈ ss, s < 64) →
      decodeChars cfg (ss.map (alphaChar cfg)) = some ss := by
  intro ss
  induction ss with
  | nil => intro _; rfl
  | cons s t ih =>
    intro h
    simp only [List.map_cons, decodeChars]
    rw [findCh_alphaChar cfg s (h s (by simp)), ih (fun x hx => h x (by simp [hx]))]

/-- C7: for every byte sequence and either alphabet configuration,
`Base64::new(b).encode()` emits unpadded output (no `=` character ever
appears), and parsing is a left inverse of encoding — in both the canonical
mode and the trailing-bits-tolerant mode used by the source configurations;
additionally `parse` with `decode_allow_trailing_bits(true)` accepts an
input with nonzero trailing bits ("QR") that canonical decoding rejects. -/
theorem base64_encode_parse_roundtrip :
    (∀ (cfg : Base64Conf) (allow : Bool) (bytes : List Nat), (∀ b ∈ bytes, b < 256) →
       '=' ∉ base64Encode cfg bytes ∧
       base64Parse cfg allow (base64Encode cfg bytes) = some bytes) ∧
    base64Parse .standard true "QR".toList = some [65] ∧
    base64Parse .standard false "QR".toList = none := by
  refine ⟨fun cfg allow bytes hb => ⟨?_, ?_⟩, rfl, rfl⟩
  · intro hmem
    obtain ⟨s, _, hs⟩ := List.mem_map.mp hmem
    exact pad_not_mem_alphaChars cfg (hs ▸ alphaChar_mem cfg s)
  · unfold base64Parse base64Encode
    rw [decodeChars_map_alphaChar cfg _ (encodeBytes_bound bytes hb)]
    exact decodeSextets_encodeBytes allow bytes hb

/-- Witness for C7: the round-trip theorem applied to the concrete bytes
`[104, 101, 108, 108, 111]` with the standard alphabet. -/
theorem base64_encode_parse_roundtrip_witness :
    (∀ b ∈ [104, 101, 108, 108, 111], b < 256) ∧
    '=' ∉ base64Encode .standard [104, 101, 108, 108, 111] ∧
    base64Parse .standard true (base64Encode .standard [104, 101, 108, 108, 111]) =
      some [104, 101, 108, 108, 111] := by
  have h : ∀ b ∈ [104, 101, 108, 108, 111], (b : Nat) < 256 := by decide
  have hr := base64_encode_parse_roundtrip.1 .standard true [104, 101, 108, 108, 111] h
  exact ⟨h, hr.1, hr.2⟩

/-- Helper: `findCh` returns the index of the first occurrence. -/
theorem findCh_spec (c : Char) :
    ∀ (l : List Char) (i : Nat), findCh c l = some i →
      l[i]? = some c ∧ ∀ j, j < i → l[j]? ≠ some c := by
  intro l
  induction l with
  | nil => intro i h; simp [findCh] at h
  | cons a t ih =>
    intro i h
    by_cases hac : a = c
    · simp [findCh, hac] at h
      subst hac
      subst h
      exact ⟨by simp, fun j hj => absurd hj (by omega)⟩
    · simp [findCh, hac] at h
      obtain ⟨i', hi', rfl⟩ := h
      obtain ⟨h1, h2⟩ := ih i' hi'
      refine ⟨by simpa using h1, ?_⟩
      intro j hj
      cases j with
      | zero => simpa using hac
      | succ j' => simpa using h2 j' (by omega)

/-- Helper for C1: `mSasV1TryFrom` succeeds exactly when the four cross-field
minimums hold. -/
theorem mSasV1TryFrom_ok_iff (init : MSasV1ContentInit) :
    (∃ c, mSasV1TryFrom init = .ok c) ↔
      ((KeyAgreementProtocol.curve25519 ∈ init.key_agreement_protocols ∨
        KeyAgreementProtocol.curve25519HkdfSha256 ∈ init.key_agreement_protocols) ∧
       HashAlgorithm.sha256 ∈ init.hashes ∧
       MessageAuthenticationCode.hkdfHmacSha256 ∈ init.message_authentication_codes ∧
       ShortAuthenticationString.decimal ∈ init.short_authentication_string) := by
  unfold mSasV1TryFrom
  by_cases h1 : KeyAgreementProtocol.curve25519 ∈ init.key_agreement_protocols ∨
      KeyAgreementProtocol.curve25519HkdfSha256 ∈ init.key_agreement_protocols
  · rw [if_neg (not_not_intro h1)]
    by_cases h2 : HashAlgorithm.sha256 ∈ init.hashes
    · rw [if_neg (not_not_intro h2)]
      by_cases h3 : MessageAuthenticationCode.hkdfHmacSha256 ∈
          init.message_authentication_codes
      · rw [if_neg (not_not_intro h3)]
        by_cases h4 : ShortAuthenticationString.decimal ∈ init.short_authentication_string
        · rw [if_neg (not_not_intro h4)]
          exact ⟨fun _ => ⟨h1, h2, h3, h4⟩, fun _ => ⟨_, rfl⟩⟩
        · rw [if_pos h4]; simp [h4]
      · rw [if_pos h3]; simp [h3]
    · rw [if_pos h2]; simp [h2]
  · rw [if_pos h1]; simp [h1]

/-- Helper: a successful lookup is a membership. -/
theorem lookupK_mem {k : String} {v : Json} :
    ∀ {l : List (String × Json)}, lookupK k l = some v → (k, v) ∈ l := by
  intro l
  induction l with
  | nil => intro h; simp [lookupK] at h
  | cons p t ih =>
    intro h
    obtain ⟨k', v'⟩ := p
    by_cases hk : k = k'
    · subst hk
      rw [lookupK, if_pos rfl] at h
      injection h with h2
      subst h2
      simp
    · rw [lookupK, if_neg hk] at h
      exact List.mem_cons_of_mem _ (ih h)

/-- Helper: erasing one key leaves lookups of other keys unchanged. -/
theorem lookupK_eraseK_ne {k k' : String} (h : k ≠ k') :
    ∀ l, lookupK k (eraseK k' l) = lookupK k l := by
  intro l
  induction l with
  | nil => rfl
  | cons p t ih =>
    obtain ⟨k'', v''⟩ := p
    by_cases h2 : k' = k''
    · subst h2
      rw [eraseK, if_pos rfl, lookupK, if_neg h]
    · rw [eraseK, if_neg h2, lookupK, lookupK]
      by_cases h3 : k = k''
      · rw [if_pos h3, if_pos h3]
      · rw [if_neg h3, if_neg h3, ih]

/-- Helper: erasure produces a sublist. -/
theorem eraseK_sublist (k : String) :
    ∀ l : List (String × Json), List.Sublist (eraseK k l) l := by
  intro l
  induction l with
  | nil => simp [eraseK]
  | cons p t ih =>
    obtain ⟨k', v'⟩ := p
    by_cases h : k = k'
    · rw [eraseK, if_pos h]
      exact List.sublist_cons_self _ _
    · rw [eraseK, if_neg h]
      exact ih.cons₂ _

/-- Helper: erasure preserves the sorted-keys invariant. -/
theorem sortedK_eraseK (k : String) {l : List (String × Json)} (h : SortedK l) :
    SortedK (eraseK k l) :=
  List.Pairwise.sublist (eraseK_sublist k l) h

/-- Helper: inserting a key below every key of a sorted list prepends. -/
theorem insertK_front {k : String} {v : Json} :
    ∀ {t : List (String × Json)}, (∀ p ∈ t, k < p.1) → insertK k v t = (k, v) :: t := by
  intro t h
  cases t with
  | nil => rfl
  | cons p t' =>
    obtain ⟨k', v'⟩ := p
    have hlt : k < k' := h (k', v') (by simp)
    rw [insertK, if_pos hlt]

/-- Helper: re-inserting a looked-up binding after erasing its key restores
a sorted object exactly. -/
theorem insertK_restore {k : String} {v : Json} :
    ∀ {l : List (String × Json)}, SortedK l → lookupK k l = some v →
      insertK k v (eraseK k l) = l := by
  intro l
  induction l with
  | nil => intro _ h; simp [lookupK] at h
  | cons p t ih =>
    intro hs hv
    obtain ⟨k', v'⟩ := p
    have hhead : ∀ p ∈ t, k' < p.1 := (List.pairwise_cons.mp hs).1
    have hst : SortedK t := (List.pairwise_cons.mp hs).2
    by_cases hk : k = k'
    · subst hk
      rw [lookupK, if_pos rfl] at hv
      injection hv with hv2
      subst hv2
      rw [eraseK, if_pos rfl]
      exact insertK_front hhead
    · rw [lookupK, if_neg hk] at hv
      have hlt : k' < k := by simpa using hhead _ (lookupK_mem hv)
      rw [eraseK, if_neg hk, insertK, if_neg (lt_asymm hlt), if_neg hk, ih hst hv]

/-- C3: media-URI parsing locates the first slash after the fixed scheme
prefix and splits there: `"mxc://127.0.0.1/asd32asdfasdsd"` parses to server
name `127.0.0.1` and media id `asd32asdfasdsd`; `"mxc://127.0.0.1"` fails
with `MissingSlash`; `"127.0.0.1/asd32asdfasdsd"` (missing scheme) is
invalid; an empty media id is still a valid parse; and in general a
successful validation means: the string starts with `mxc://`, the returned
index is the first slash after the prefix, the segment before it validates
as a ServerName, and `parts` splits exactly there. -/
theorem mxcUri_parsing_algorithm :
    (mkMxcUri "mxc://127.0.0.1/asd32asdfasdsd").parts =
      .ok ("127.0.0.1".toList, "asd32asdfasdsd".toList) ∧
    (mkMxcUri "mxc://127.0.0.1").parts = .error .missingSlash ∧
    (mkMxcUri "127.0.0.1/asd32asdfasdsd").is_valid = false ∧
    (mkMxcUri "mxc://127.0.0.1/").parts = .ok ("127.0.0.1".toList, []) ∧
    ∀ u idx, mxcUriValidate u = .ok idx →
      u.take 6 = "mxc://".toList ∧
      6 ≤ idx ∧
      (u.drop 6)[idx - 6]? = some '/' ∧
      (∀ j, j < idx - 6 → (u.drop 6)[j]? ≠ some '/') ∧
      serverNameValidate ((u.drop 6).take (idx - 6)) = true ∧
      MxcUri.parts ⟨u⟩ = .ok ((u.take idx).drop 6, u.drop (idx + 1)) := by
  refine ⟨rfl, rfl, rfl, rfl, ?_⟩
  intro u idx h
  have horig := h
  unfold mxcUriValidate at h
  by_cases hpre : u.take 6 = "mxc://".toList
  · rw [if_pos hpre] at h
    cases hf : findCh '/' (u.drop 6) with
    | none => rw [hf] at h; cases h
    | some i =>
      rw [hf] at h
      have h : (if serverNameValidate ((u.drop 6).take i) = true then
            (Except.ok (6 + i) : Except MxcUriError Nat)
          else .error .invalidServerName) = .ok idx := h
      by_cases hsn : serverNameValidate ((u.drop 6).take i) = true
      · rw [if_pos hsn] at h
        simp only [Except.ok.injEq] at h
        obtain ⟨hget, hmin⟩ := findCh_spec '/' (u.drop 6) i hf
        have hi : idx - 6 = i := by omega
        refine ⟨hpre, by omega, ?_, ?_, ?_, ?_⟩
        · rw [hi]; exact hget
        · intro j hj; rw [hi] at hj; exact hmin j hj
        · rw [hi]; exact hsn
        · simp [MxcUri.parts, MxcUri.extract_slash_idx, horig, Except.map]
      · rw [if_neg hsn] at h; cases h
  · rw [if_neg hpre] at h; cases h

/-- Witness for C3: the general clause applied to the concrete URI
`mxc://127.0.0.1/asd32asdfasdsd`, whose slash index is 15. -/
theorem mxcUri_parsing_algorithm_witness :
    mxcUriValidate ("mxc://127.0.0.1/asd32asdfasdsd".toList) = .ok 15 ∧
    ("mxc://127.0.0.1/asd32asdfasdsd".toList.drop 6)[15 - 6]? = some '/' ∧
    serverNameValidate (("mxc://127.0.0.1/asd32asdfasdsd".toList.drop 6).take (15 - 6)) =
      true := by
  have h : mxcUriValidate ("mxc://127.0.0.1/asd32asdfasdsd".toList) = .ok 15 := rfl
  have hg := mxcUri_parsing_algorithm.2.2.2.2 ("mxc://127.0.0.1/asd32asdfasdsd".toList) 15 h
  exact ⟨h, hg.2.2.1, hg.2.2.2.2.1⟩

/-- C2 counterexample: a grammar-invalid `MxcUri` is live and observable —
the unvalidated conversion (exercised by the repository's own test
`parse_mxc_uri_without_protocol`) wraps `"127.0.0.1/asd32asdfasdsd"`
unchanged into an `MxcUri` value whose grammar check fails. -/
theorem mxcUri_live_invalid_counterexample :
    (mkMxcUri "127.0.0.1/asd32asdfasdsd").chars = "127.0.0.1/asd32asdfasdsd".toList ∧
    (mkMxcUri "127.0.0.1/asd32asdfasdsd").is_valid = false ∧
    (mkMxcUri "127.0.0.1/asd32asdfasdsd").validate = .error .wrongSchema :=
  ⟨rfl, rfl, rfl⟩

/-- C2 (amended): `MxcUri` is not validated at construction — any string
converts to a live `MxcUri` unchanged, so grammar-invalid values exist and
are observable; grammar validity is instead determined on demand by
`validate`/`is_valid`/`parts`, which never mutate the value. -/
theorem mxcUri_validation_on_demand :
    (∀ s : String, (mkMxcUri s).chars = s.toList) ∧
    (mkMxcUri "mxc://127.0.0.1/a").is_valid = true ∧
    (mkMxcUri "127.0.0.1/asd32asdfasdsd").is_valid = false ∧
    (∀ u : MxcUri, u.is_valid = true ↔ (mxcUriValidate u.chars).isOk = true) := by
  refine ⟨fun _ => rfl, rfl, rfl, fun u => ?_⟩
  cases h : mxcUriValidate u.chars <;>
    simp [MxcUri.is_valid, MxcUri.validate, MxcUri.extract_slash_idx, h, Except.map,
      Except.isOk, Except.toBool]

/-- C10: the `MxcUri` accessors agree — `server_name` and `media_id` are the
two projections of `parts`; `validate`, `parts`, `server_name` and
`media_id` all succeed or all fail with the same error; and `is_valid` is
true exactly when `parts` returns `Ok`. -/
theorem mxcUri_accessors_agree (u : MxcUri) :
    u.server_name = u.parts.map Prod.fst ∧
    u.media_id = u.parts.map Prod.snd ∧
    (u.validate = .ok () ↔ ∃ p, u.parts = .ok p) ∧
    (∀ e, u.validate = .error e ↔ u.parts = .error e) ∧
    (∀ e, u.server_name = .error e ↔ u.parts = .error e) ∧
    (∀ e, u.media_id = .error e ↔ u.parts = .error e) ∧
    (u.is_valid = true ↔ ∃ p, u.parts = .ok p) := by
  cases h : u.extract_slash_idx with
  | error e' =>
    simp [MxcUri.server_name, MxcUri.media_id, MxcUri.parts, MxcUri.validate,
      MxcUri.is_valid, h, Except.map, Except.isOk, Except.toBool]
  | ok idx =>
    simp [MxcUri.server_name, MxcUri.media_id, MxcUri.parts, MxcUri.validate,
      MxcUri.is_valid, h, Except.map, Except.isOk, Except.toBool]

/-- Helper for C1: a failed construction reports the first violated
minimum, with the error message of that field. -/
theorem mSasV1TryFrom_error_names (init : MSasV1ContentInit) (e : InvalidInput)
    (h : mSasV1TryFrom init = .error e) :
    (e = ⟨kapErrMsg⟩ ∧
      ¬(KeyAgreementProtocol.curve25519 ∈ init.key_agreement_protocols ∨
        KeyAgreementProtocol.curve25519HkdfSha256 ∈ init.key_agreement_protocols)) ∨
    (e = ⟨hashesErrMsg⟩ ∧ HashAlgorithm.sha256 ∉ init.hashes) ∨
    (e = ⟨macErrMsg⟩ ∧
      MessageAuthenticationCode.hkdfHmacSha256 ∉ init.message_authentication_codes) ∨
    (e = ⟨sasErrMsg⟩ ∧
      ShortAuthenticationString.decimal ∉ init.short_authentication_string) := by
  unfold mSasV1TryFrom at h
  by_cases h1 : KeyAgreementProtocol.curve25519 ∈ init.key_agreement_protocols ∨
      KeyAgreementProtocol.curve25519HkdfSha256 ∈ init.key_agreement_protocols
  · rw [if_neg (not_not_intro h1)] at h
    by_cases h2 : HashAlgorithm.sha256 ∈ init.hashes
    · rw [if_neg (not_not_intro h2)] at h
      by_cases h3 : MessageAuthenticationCode.hkdfHmacSha256 ∈
          init.message_authentication_codes
      · rw [if_neg (not_not_intro h3)] at h
        by_cases h4 : ShortAuthenticationString.decimal ∈ init.short_authentication_string
        · rw [if_neg (not_not_intro h4)] at h
          cases h
        · rw [if_pos h4] at h
          injection h with h5
          exact Or.inr (Or.inr (Or.inr ⟨h5.symm, h4⟩))
      · rw [if_pos h3] at h
        injection h with h5
        exact Or.inr (Or.inr (Or.inl ⟨h5.symm, h3⟩))
    · rw [if_pos h2] at h
      injection h with h5
      exact Or.inr (Or.inl ⟨h5.symm, h2⟩)
  · rw [if_pos h1] at h
    injection h with h5
    exact Or.inl ⟨h5.symm, h1⟩

/-- C1: `MSasV1Content` construction (`new` / `TryFrom<MSasV1ContentInit>`)
succeeds if and only if all four cross-field minimums hold
(`key_agreement_protocols` contains Curve25519 or Curve25519HkdfSha256,
`hashes` contains Sha256, `message_authentication_codes` contains
HkdfHmacSha256, `short_authentication_string` contains Decimal); on any
violation the returned `InvalidInput` carries the message of a violated
minimum, and each of the four messages names its offending field; the input
with empty `key_agreement_protocols` and the other three minimums satisfied
fails with an `InvalidInput` whose message names `key_agreement_protocols`;
no content value is produced on failure (an `Except.error` result carries
no `MSasV1Content`). -/
theorem mSasV1Content_construction_minimums :
    (∀ init : MSasV1ContentInit,
      (∃ c, mSasV1TryFrom init = .ok c) ↔
        ((KeyAgreementProtocol.curve25519 ∈ init.key_agreement_protocols ∨
          KeyAgreementProtocol.curve25519HkdfSha256 ∈ init.key_agreement_protocols) ∧
         HashAlgorithm.sha256 ∈ init.hashes ∧
         MessageAuthenticationCode.hkdfHmacSha256 ∈ init.message_authentication_codes ∧
         ShortAuthenticationString.decimal ∈ init.short_authentication_string)) ∧
    (∀ (init : MSasV1ContentInit) (e : InvalidInput), mSasV1TryFrom init = .error e →
      (e = ⟨kapErrMsg⟩ ∧
        ¬(KeyAgreementProtocol.curve25519 ∈ init.key_agreement_protocols ∨
          KeyAgreementProtocol.curve25519HkdfSha256 ∈ init.key_agreement_protocols)) ∨
      (e = ⟨hashesErrMsg⟩ ∧ HashAlgorithm.sha256 ∉ init.hashes) ∨
      (e = ⟨macErrMsg⟩ ∧
        MessageAuthenticationCode.hkdfHmacSha256 ∉ init.message_authentication_codes) ∨
      (e = ⟨sasErrMsg⟩ ∧
        ShortAuthenticationString.decimal ∉ init.short_authentication_string)) ∧
    MSasV1Content.new badKapInit = .error ⟨kapErrMsg⟩ ∧
    strContains kapErrMsg "key_agreement_protocols" = true ∧
    strContains hashesErrMsg "hashes" = true ∧
    strContains macErrMsg "message_authentication_codes" = true ∧
    strContains sasErrMsg "short_authentication_string" = true :=
  ⟨mSasV1TryFrom_ok_iff, mSasV1TryFrom_error_names, rfl, by decide, by decide, by decide,
   by decide⟩

/-- Witness for C1: the error-naming clause applied to the concrete failing
input with empty `key_agreement_protocols`. -/
theorem mSasV1Content_construction_minimums_witness :
    mSasV1TryFrom badKapInit = .error ⟨kapErrMsg⟩ ∧
    ¬(KeyAgreementProtocol.curve25519 ∈ badKapInit.key_agreement_protocols ∨
      KeyAgreementProtocol.curve25519HkdfSha256 ∈ badKapInit.key_agreement_protocols) := by
  have h : mSasV1TryFrom badKapInit = .error ⟨kapErrMsg⟩ := rfl
  have hg := mSasV1Content_construction_minimums.2.1 badKapInit ⟨kapErrMsg⟩ h
  refine ⟨h, ?_⟩
  rcases hg with ⟨_, h2⟩ | ⟨h2, _⟩ | ⟨h2, _⟩ | ⟨h2, _⟩
  · exact h2
  all_goals {
    exfalso
    have := congrArg InvalidInput.msg h2
    simp [kapErrMsg, hashesErrMsg, macErrMsg, sasErrMsg] at this
  }

/-- C6: for the knock_room endpoint, an empty `server_name` list contributes
no query pairs at all; `["a.com", "b.com"]` serializes as the repeated pairs
`server_name=a.com&server_name=b.com` in list order; and decoding groups the
repeated keys back into the same ordered list. -/
theorem knockRoom_serverName_query :
    encodeServerNameQuery [] = [] ∧
    encodeServerNameQuery ["a.com", "b.com"] =
      [("server_name", "a.com"), ("server_name", "b.com")] ∧
    renderQuery (encodeServerNameQuery ["a.com", "b.com"]) =
      "server_name=a.com&server_name=b.com" ∧
    ∀ l, decodeServerNameQuery (encodeServerNameQuery l) = l := by
  refine ⟨rfl, rfl, by decide, fun l => ?_⟩
  induction l with
  | nil => rfl
  | cons h t ih =>
    simpa [decodeServerNameQuery, encodeServerNameQuery] using ih

/-- C8: `PollResponseEventContent.new selections poll_start_id` always
produces a value whose mandatory `relates_to` relation block is present
(the field is non-optional in the type) and references exactly
`poll_start_id`, and whose `selections` field equals the given selections. -/
theorem pollResponse_new_populates_relation (sel : SelectionsContentBlock)
    (pid : String) :
    (PollResponseEventContent.new sel pid).relates_to = Reference.new pid ∧
    (PollResponseEventContent.new sel pid).relates_to.event_id = pid ∧
    (PollResponseEventContent.new sel pid).selections = sel :=
  ⟨rfl, rfl, rfl⟩

/-- C9: `DeviceId.new` returns a device id of exactly 8 characters for every
state of the pseudo-random source. -/
theorem deviceId_new_length (rng : Nat → Nat) : (DeviceId.new rng).length = 8 := by
  simp [DeviceId.new, generate_localpart]

/-- C4: secondary dispatch on the verification-start `method` string is
lossless with fallback — deserializing content whose method string is not
the registered `m.sas.v1` yields the `Custom` fallback carrying the method
name plus all remaining fields, and re-serializing reproduces the original
canonical object (order-independent equality of JSON objects); the
registered example content of the repository's test deserializes to the
statically known `MSasV1` shape. -/
theorem startMethod_dispatch_lossless :
    (∀ (o : List (String × Json)) (fd tid m : String),
      SortedK o →
      lookupK "from_device" o = some (.str fd) →
      lookupK "transaction_id" o = some (.str tid) →
      lookupK "method" o = some (.str m) →
      m ≠ "m.sas.v1" →
      deserializeStartEventContent o =
        some ⟨fd, tid, .custom ⟨m,
          eraseK "method" (eraseK "transaction_id" (eraseK "from_device" o))⟩⟩ ∧
      serializeStartEventContent ⟨fd, tid, .custom ⟨m,
          eraseK "method" (eraseK "transaction_id" (eraseK "from_device" o))⟩⟩ = o) ∧
    deserializeStartEventContent mSasExampleObj =
      some ⟨"123", "456",
        .mSasV1 ⟨[.curve25519], [.sha256], [.hkdfHmacSha256], [.decimal]⟩⟩ := by
  constructor
  · intro o fd tid m hs hfd htid hm hne
    have hs1 : SortedK (eraseK "from_device" o) := sortedK_eraseK _ hs
    have hsZ : SortedK (eraseK "transaction_id" (eraseK "from_device" o)) :=
      sortedK_eraseK _ hs1
    have hmZ : lookupK "method" (eraseK "transaction_id" (eraseK "from_device" o)) =
        some (.str m) := by
      rw [lookupK_eraseK_ne (by decide), lookupK_eraseK_ne (by decide), hm]
    have htry : tryMSasV1 (eraseK "transaction_id" (eraseK "from_device" o)) = none := by
      unfold tryMSasV1
      rw [hmZ]
      simp [hne]
    have hdm : deserializeStartMethod (eraseK "transaction_id" (eraseK "from_device" o)) =
        some (.custom ⟨m,
          eraseK "method" (eraseK "transaction_id" (eraseK "from_device" o))⟩) := by
      unfold deserializeStartMethod
      rw [htry, hmZ]
    constructor
    · unfold deserializeStartEventContent
      rw [hfd, htid, hdm]
      rfl
    · have h1 : insertK "method" (.str m)
          (eraseK "method" (eraseK "transaction_id" (eraseK "from_device" o))) =
          eraseK "transaction_id" (eraseK "from_device" o) := insertK_restore hsZ hmZ
      have htid1 : lookupK "transaction_id" (eraseK "from_device" o) = some (.str tid) := by
        rw [lookupK_eraseK_ne (by decide)]
        exact htid
      have h2 : insertK "transaction_id" (.str tid)
          (eraseK "transaction_id" (eraseK "from_device" o)) = eraseK "from_device" o :=
        insertK_restore hs1 htid1
      have h3 : insertK "from_device" (.str fd) (eraseK "from_device" o) = o :=
        insertK_restore hs hfd
      simp only [serializeStartEventContent, serializeStartMethod]
      rw [h1, h2, h3]
  · rfl

/-- Witness for C4: the fallback clause applied to the repository's
concrete custom-method test content (`method = "m.sas.custom"`, one extra
field `test = "field"`). -/
theorem startMethod_dispatch_lossless_witness :
    SortedK [("from_device", Json.str "123"), ("method", Json.str "m.sas.custom"),
      ("test", Json.str "field"), ("transaction_id", Json.str "456")] ∧
    deserializeStartEventContent
        [("from_device", Json.str "123"), ("method", Json.str "m.sas.custom"),
          ("test", Json.str "field"), ("transaction_id", Json.str "456")] =
      some ⟨"123", "456", .custom ⟨"m.sas.custom", [("test", Json.str "field")]⟩⟩ ∧
    serializeStartEventContent
        ⟨"123", "456", .custom ⟨"m.sas.custom", [("test", Json.str "field")]⟩⟩ =
      [("from_device", Json.str "123"), ("method", Json.str "m.sas.custom"),
        ("test", Json.str "field"), ("transaction_id", Json.str "456")] := by
  have hso : SortedK [("from_device", Json.str "123"), ("method", Json.str "m.sas.custom"),
      ("test", Json.str "field"), ("transaction_id", Json.str "456")] := by
    unfold SortedK
    refine List.Pairwise.cons ?_ (List.Pairwise.cons ?_ (List.Pairwise.cons ?_
      (List.Pairwise.cons ?_ List.Pairwise.nil))) <;>
      (intro p hp; fin_cases hp <;> exact String.lt_iff_toList_lt.mpr (by decide))
  have hg := startMethod_dispatch_lossless.1
    [("from_device", Json.str "123"), ("method", Json.str "m.sas.custom"),
      ("test", Json.str "field"), ("transaction_id", Json.str "456")]
    "123" "456" "m.sas.custom" hso rfl rfl rfl (by decide)
  exact ⟨hso, hg.1, hg.2⟩

/-- C5: a `None` optional field of `ChildEventContent` is entirely absent
from the serialized object (never null or empty) — in particular the
all-`None` value serializes to the empty JSON object — and an absent field
on decode maps back to the field's default `None`. -/
theorem childEventContent_omits_absent_fields :
    serializeChild ⟨none, none, none⟩ = [] ∧
    deserializeChild [] = some ⟨none, none, none⟩ ∧
    (∀ c : ChildEventContent,
      lookupK "via" (serializeChild c) = c.via.map (fun v => Json.arr (v.map Json.str)) ∧
      lookupK "order" (serializeChild c) = c.order.map Json.str ∧
      lookupK "suggested" (serializeChild c) = c.suggested.map Json.bool) ∧
    (∀ o : List (String × Json),
      lookupK "via" o = none → lookupK "order" o = none → lookupK "suggested" o = none →
      deserializeChild o = some ⟨none, none, none⟩) := by
  refine ⟨rfl, rfl, fun c => ?_, fun o h1 h2 h3 => ?_⟩
  · rcases c with ⟨_ | v, _ | ord, _ | sug⟩ <;> exact ⟨rfl, rfl, rfl⟩
  · unfold deserializeChild
    rw [h1, h2, h3]
    rfl

/-- Witness for C5: the absent-fields-decode clause applied to the empty
object. -/
theorem childEventContent_omits_absent_fields_witness :
    deserializeChild [] = some ⟨none, none, none⟩ :=
  childEventContent_omits_absent_fields.2.2.2 [] rfl rfl rfl

end Ruma
